import Mathlib

/-!
Verification of the patch-based state synchronization engine of
`app.py` (JSON-Pointer resolver, constrained patch applier, frame
normalizer, gated persistent store behind `/api/wslog`).

The Python source is shallowly embedded: JSON values become the
inductive `Value`; in-place mutation of the document becomes explicit
value passing; `KeyError`-driven control flow becomes returned
`(document, applied, reason)` triples, mirroring the blanket
`except Exception` in `_apply_single_patch`.
-/

namespace MagicGarden

/-- JSON values as decoded by Python's `json` module.  Numbers are
modelled as integers (every numeric literal the engine manipulates in
the specified behaviour is integral).  Objects are insertion-ordered
association lists with unique keys, matching Python dicts. -/
inductive Value where
  | null
  | bool (b : Bool)
  | num (n : Int)
  | str (s : String)
  | arr (elems : List Value)
  | obj (entries : List (String × Value))
deriving Repr

namespace Value

def isObj : Value → Bool
  | .obj _ => true
  | _ => false

def isNull : Value → Bool
  | .null => true
  | _ => false

end Value

/-- `d.get(k)` / `k in d` on a Python dict: first (only) binding. -/
def objLookup (kvs : List (String × Value)) (k : String) : Option Value :=
  (kvs.find? (fun e => e.1 = k)).map (·.2)

/-- `d[k] = v` on a Python dict: overwrite in place if present, else
append, preserving insertion order. -/
def objSet (kvs : List (String × Value)) (k : String) (v : Value) :
    List (String × Value) :=
  match kvs with
  | [] => [(k, v)]
  | (k', v') :: rest =>
    if k' = k then (k', v) :: rest else (k', v') :: objSet rest k v

/-- `del d[k]` on a Python dict (removes the sole binding of `k`). -/
def objDel (kvs : List (String × Value)) (k : String) :
    List (String × Value) :=
  match kvs with
  | [] => []
  | (k', v') :: rest =>
    if k' = k then rest else (k', v') :: objDel rest k

/-! ### Python `str.replace` for the patterns used by the engine

`_json_pointer_tokens` uses `.replace('~1', '/').replace('~0', '~')`;
the re-encoding direction of the round-trip property uses
`.replace('~', '~0').replace('/', '~1')`.  Python's `str.replace`
scans left to right replacing non-overlapping occurrences; we embed it
for the one-character and two-character patterns that occur. -/

/-- Python `s.replace(p, repl)` for a one-character pattern `p`. -/
def replace1 (p : Char) (repl : List Char) : List Char → List Char
  | [] => []
  | c :: cs => if c = p then repl ++ replace1 p repl cs else c :: replace1 p repl cs

/-- Python `s.replace(p₁p₂, repl)` for a two-character pattern:
leftmost non-overlapping occurrences. -/
def replace2 (p₁ p₂ : Char) (repl : List Char) : List Char → List Char
  | [] => []
  | [c] => [c]
  | c₁ :: c₂ :: cs =>
    if c₁ = p₁ ∧ c₂ = p₂ then repl ++ replace2 p₁ p₂ repl cs
    else c₁ :: replace2 p₁ p₂ repl (c₂ :: cs)

/-- `p.replace('~1', '/').replace('~0', '~')` on the characters of one
`/`-separated part (RFC 6901 token decoding as the code performs it). -/
def decodeTokenL (l : List Char) : List Char :=
  replace2 '~' '0' ['~'] (replace2 '~' '1' ['/'] l)

/-- Python `pointer.split('/')` (single-character separator: split at
every `'/'`, empty parts kept). -/
def splitSlash : List Char → List (List Char)
  | [] => [[]]
  | c :: cs =>
    if c = '/' then [] :: splitSlash cs
    else
      match splitSlash cs with
      | [] => [[c]]
      | g :: gs => (c :: g) :: gs

/-- `_json_pointer_tokens` (app.py): `""` decodes to no tokens; a
string not starting with `'/'` is returned whole as a single token
with no unescaping; otherwise split on `'/'`, drop the leading empty
part, and decode `~1`/`~0` in each part.  (The `pointer is None`
branch is unreachable from the embedded callers, which check
`isinstance(path, str)` first.) -/
def jsonPointerTokens (p : String) : List String :=
  if p = "" then []
  else
    match p.data with
    | '/' :: rest => (splitSlash rest).map (fun l => String.mk (decodeTokenL l))
    | _ => [p]

/-- Re-encoding of one decoded token with RFC 6901 escaping, as the
round-trip property prescribes:
`t.replace('~', '~0').replace('/', '~1')`. -/
def encodeTokenL (l : List Char) : List Char :=
  replace1 '/' ['~', '1'] (replace1 '~' ['~', '0'] l)

def encodeToken (t : String) : String :=
  String.mk (encodeTokenL t.data)

/-- Modelled from the spec: re-encode a decoded token list into a
pointer string, one `/`-led escaped token per level (the code has no
encoder; this follows the round-trip property's words). -/
def encodePointer : List String → String
  | [] => ""
  | t :: ts => "/" ++ encodeToken t ++ encodePointer ts

/-- Canonically escaped pointer text: every `~` is immediately
followed by `0` or `1`. -/
def tildeEscaped : List Char → Bool
  | [] => true
  | '~' :: cs =>
    match cs with
    | '0' :: rest => tildeEscaped rest
    | '1' :: rest => tildeEscaped rest
    | _ => false
  | _ :: cs => tildeEscaped cs

/-- Rebuilding split parts: each part re-led by `/` (proof helper). -/
def joinSlash (gs : List (List Char)) : List Char :=
  (gs.map (fun g => '/' :: g)).flatten

/-- `int(token)` for decimal string literals: optional sign followed
by one or more ASCII digits.  (Python's `int` additionally strips
whitespace and accepts underscores and non-ASCII digits; no token in
the specified behaviour uses those forms.) -/
def pyParseInt? (s : String) : Option Int :=
  let digitsVal (ds : List Char) : Option Nat :=
    if ds.isEmpty ∨ ¬ ds.all Char.isDigit then none
    else some (ds.foldl (fun acc c => acc * 10 + (c.toNat - '0'.toNat)) 0)
  match s.data with
  | '-' :: ds => (digitsVal ds).map (fun n => -(n : Int))
  | '+' :: ds => (digitsVal ds).map (fun n => (n : Int))
  | ds => (digitsVal ds).map (fun n => (n : Int))

/-- `_is_int_token` (app.py): whether `int(token)` succeeds. -/
def isIntToken (t : String) : Bool :=
  (pyParseInt? t).isSome

/-! ### Python `str()` of a JSON value

`_apply_single_patch` computes `str(patch.get('op', '')).lower()`.
`str` of a string is the string itself; other values render via their
`repr` (string escaping inside containers is not modelled; no claim
exercises it). -/

mutual

def pyReprV : Value → String
  | .null => "None"
  | .bool true => "True"
  | .bool false => "False"
  | .num n => toString n
  | .str s => "\x27" ++ s ++ "\x27"
  | .arr xs => "[" ++ pyReprList xs ++ "]"
  | .obj kvs => "\x7b" ++ pyReprEntries kvs ++ "\x7d"

def pyReprList : List Value → String
  | [] => ""
  | [v] => pyReprV v
  | v :: vs => pyReprV v ++ ", " ++ pyReprList vs

def pyReprEntries : List (String × Value) → String
  | [] => ""
  | [(k, v)] => "\x27" ++ k ++ "\x27: " ++ pyReprV v
  | (k, v) :: kvs => "\x27" ++ k ++ "\x27: " ++ pyReprV v ++ ", " ++ pyReprEntries kvs

end

def pyStr : Value → String
  | .str s => s
  | v => pyReprV v

/-- Python `str.lower()` restricted to ASCII (no op name in the
engine uses non-ASCII letters). -/
def pyLower (s : String) : String :=
  String.mk (s.data.map (fun c =>
    if 'A' ≤ c ∧ c ≤ 'Z' then Char.ofNat (c.toNat + 32) else c))

/-- The single-quote character. -/
def sq : Char := Char.ofNat 39

/-- `str(KeyError(m))`: Python renders the exception's argument with
`repr`, so the message gains surrounding quotes (double quotes when
the message itself contains a single quote, Python's repr rule). -/
def kerr (m : String) : String :=
  if m.data.contains sq then "\"" ++ m ++ "\"" else "\x27" ++ m ++ "\x27"

/-- Container-type decision when `_get_parent_and_key` must create a
missing intermediate level (app.py lines 84‑87, 107‑110): an `Array`
when the next token is `"-"` or `_is_int_token` accepts it, else an
`Object`. -/
def newContainer (next : String) : Value :=
  if next = "-" ∨ isIntToken next then .arr [] else .obj []

/-- Python `list.insert(i, x)` for `0 ≤ i ≤ len`. -/
def pyInsert (i : Nat) (a : Value) (xs : List Value) : List Value :=
  xs.take i ++ a :: xs.drop i

/-! ### Final-step application (`_apply_single_patch`, per op) -/

/-- The `op == 'remove'` branch applied at the resolved parent. -/
def removeFinal (parent : Value) (key : String) : Value × Bool × Option String :=
  match parent with
  | .obj kvs =>
    match objLookup kvs key with
    | some _ => (.obj (objDel kvs key), true, none)
    | none => (.obj kvs, false, some "key not found")
  | .arr xs =>
    if key = "-" then
      match xs with
      | [] => (.arr [], false, some "array empty")
      | _ => (.arr xs.dropLast, true, none)
    else
      match pyParseInt? key with
      | none => (.arr xs, false, some "invalid index token")
      | some idx =>
        if 0 ≤ idx ∧ idx < (xs.length : Int) then
          (.arr (xs.take idx.toNat ++ xs.drop (idx.toNat + 1)), true, none)
        else (.arr xs, false, some "index out of range")
  | p => (p, false, some "cannot remove from non-container")

/-- The `op == 'add'` branch applied at the resolved parent. -/
def addFinal (value : Value) (parent : Value) (key : String) :
    Value × Bool × Option String :=
  match parent with
  | .obj kvs => (.obj (objSet kvs key value), true, none)
  | .arr xs =>
    if key = "-" then (.arr (xs ++ [value]), true, none)
    else
      match pyParseInt? key with
      | none => (.arr xs, false, some "invalid index token")
      | some idx =>
        if idx < 0 then (.arr xs, false, some "index out of range")
        else if idx ≤ (xs.length : Int) then
          (.arr (pyInsert idx.toNat value xs), true, none)
        else
          (.arr (xs ++ List.replicate (idx.toNat - xs.length) .null ++ [value]),
           true, none)
  | p => (p, false, some "cannot add into non-container")

/-- The `op == 'replace'` branch applied at the resolved parent. -/
def replaceFinal (value : Value) (parent : Value) (key : String) :
    Value × Bool × Option String :=
  match parent with
  | .obj kvs =>
    match objLookup kvs key with
    | some _ => (.obj (objSet kvs key value), true, none)
    | none => (.obj kvs, false, some "key not found for replace")
  | .arr xs =>
    match pyParseInt? key with
    | none => (.arr xs, false, some "invalid index token")
    | some idx =>
      if 0 ≤ idx ∧ idx < (xs.length : Int) then
        (.arr (xs.set idx.toNat value), true, none)
      else (.arr xs, false, some "index out of range")
  | p => (p, false, some "cannot replace in non-container")

/-- `_get_parent_and_key` fused with the per-op final step.  The
traversal walks all tokens but the last, mutating `current` exactly as
app.py lines 74‑119 do (creation side effects are kept even when a
later step fails, as in-place mutation does); the final token is
handed to `final`.  A raised `KeyError` becomes
`(partially-mutated value, false, some (str of the exception))`. -/
def navApply (create : Bool)
    (final : Value → String → Value × Bool × Option String) :
    Value → List String → Value × Bool × Option String
  | current, [] =>
    -- unreachable: every caller checks the token list is non-empty
    (current, false, some (kerr "Empty pointer"))
  | current, [last] => final current last
  | current, t :: next :: rest =>
    match current with
    | .obj kvs =>
      match objLookup kvs t with
      | some v =>
        if v.isNull then
          -- `current[token] is None` counts as missing
          if create then
            let (child', ok, r) := navApply create final (newContainer next) (next :: rest)
            (.obj (objSet kvs t child'), ok, r)
          else (.obj kvs, false, some (kerr ("Missing key: " ++ t)))
        else
          let (v', ok, r) := navApply create final v (next :: rest)
          (.obj (objSet kvs t v'), ok, r)
      | none =>
        if create then
          let (child', ok, r) := navApply create final (newContainer next) (next :: rest)
          (.obj (objSet kvs t child'), ok, r)
        else (.obj kvs, false, some (kerr ("Missing key: " ++ t)))
    | .arr xs =>
      if t = "-" then
        (.arr xs, false, some (kerr "\x27-\x27 not allowed except as final token in add op"))
      else
        match pyParseInt? t with
        | none => (.arr xs, false, some (kerr ("Expected array index, got: " ++ t)))
        | some idx =>
          if idx < 0 then
            (.arr xs, false, some (kerr ("Negative index not allowed: " ++ toString idx)))
          else if (xs.length : Int) ≤ idx ∧ ¬ create then
            (.arr xs, false, some (kerr ("Index out of range: " ++ toString idx)))
          else
            -- `while len(current) <= idx: current.append(None)`
            let xs₁ := if (xs.length : Int) ≤ idx then
                xs ++ List.replicate (idx.toNat + 1 - xs.length) .null
              else xs
            let el := xs₁.getD idx.toNat .null
            if el.isNull then
              if create then
                let (child', ok, r) :=
                  navApply create final (newContainer next) (next :: rest)
                (.arr (xs₁.set idx.toNat child'), ok, r)
              else
                (.arr xs₁, false,
                 some (kerr ("Missing element at index: " ++ toString idx)))
            else
              let (el', ok, r) := navApply create final el (next :: rest)
              (.arr (xs₁.set idx.toNat el'), ok, r)
    | v =>
      -- non-container mid-traversal (app.py lines 112‑119): both
      -- branches raise a KeyError
      if create then (v, false, some (kerr "Invalid traversal state"))
      else (v, false, some (kerr "Cannot traverse non-container value"))

/-- `_apply_single_patch` (app.py lines 123‑207).  The in-place
mutation of `document` is returned as the first component; the pair
`(applied, reason)` is the Python return value.  The blanket
`except Exception` makes the Python function total; the embedding is
total by construction, with the `AttributeError` raised by
`patch.get` on a non-dict rendered like Python renders it. -/
def applySinglePatch (document : Value) (patch : Value) :
    Value × Bool × Option String :=
  match patch with
  | .obj kvs =>
    let op := pyLower (pyStr ((objLookup kvs "op").getD (.str "")))
    match objLookup kvs "path" with
    | some (.str path) =>
      if op = "" then (document, false, some "missing op/path")
      else
        match jsonPointerTokens path with
        | [] => (document, false, some "root path not supported")
        | tokens =>
          let create := op = "add"
          let value := (objLookup kvs "value").getD .null
          if op = "remove" then navApply create removeFinal document tokens
          else if op = "add" then navApply create (addFinal value) document tokens
          else if op = "replace" then navApply create (replaceFinal value) document tokens
          else navApply create
            (fun parent _ => (parent, false, some ("unsupported op: " ++ op)))
            document tokens
    | _ => (document, false, some "missing op/path")
  | _ =>
    -- Python: AttributeError from `patch.get`, caught by the blanket handler
    (document, false, some "object has no attribute \x27get\x27")

/-- Outcome of the per-request patch loop (app.py lines 648‑659). -/
structure BatchOutcome where
  doc : Value
  applied : Nat
  skipped : Nat
  reasons : List String
deriving Repr

/-- The patch loop of `api_wslog`: each entry of the posted patch list
is applied in order against the evolving in-memory state; a non-dict
entry is replaced by the empty dict `\x7b\x7d`; skip reasons are
collected in order of occurrence (`if reason:` drops empty ones). -/
def applyBatchLoop (doc : Value) : List Value → BatchOutcome
  | [] => ⟨doc, 0, 0, []⟩
  | p :: ps =>
    let q := if p.isObj then p else .obj []
    let (doc', ok, reason) := applySinglePatch doc q
    let rest := applyBatchLoop doc' ps
    if ok then ⟨rest.doc, rest.applied + 1, rest.skipped, rest.reasons⟩
    else
      ⟨rest.doc, rest.applied, rest.skipped + 1,
       match reason with
       | some r => if r = "" then rest.reasons else r :: rest.reasons
       | none => rest.reasons⟩

/-! ### Frame normalization (`api_wslog` and `_collect_patches_from_body`) -/

/-- `frames_to_log` extraction (app.py lines 546‑556): a dict with a
list-typed `frames` field contributes that list; a dict with a `type`
key is wrapped as a single inbound frame (its wall-clock `ts` is
never inspected and is modelled as `null`); a dict with a `msg` key is
logged as-is; a list body is the frame list itself. -/
def framesToLog (body : Value) : List Value :=
  match body with
  | .obj kvs =>
    match objLookup kvs "frames" with
    | some (.arr fs) => fs
    | _ =>
      if (objLookup kvs "type").isSome then
        [.obj [("dir", .str "in"), ("msg", body), ("ts", .null)]]
      else if (objLookup kvs "msg").isSome then [body]
      else []
  | .arr fs => fs
  | _ => []

/-- `_get_msg` (app.py lines 572‑578): a dict-valued `msg` field, else
the frame itself when it has a `type` key, else nothing. -/
def getMsg (frame : Value) : Option Value :=
  match frame with
  | .obj kvs =>
    match objLookup kvs "msg" with
    | some (.obj m) => some (.obj m)
    | _ => if (objLookup kvs "type").isSome then some (.obj kvs) else none
  | _ => none

/-- The frame list scanned for Welcome snapshots (app.py line 580). -/
def scanFrames (body : Value) : List Value :=
  match framesToLog body with
  | [] => match body with
          | .obj kvs => [.obj kvs]
          | _ => []
  | fs => fs

/-- Whether one frame yields a snapshot: its inner message must have
`type == 'Welcome'` and a dict-typed `fullState` (app.py line 585). -/
def snapshotOf (frame : Value) : Option Value :=
  match getMsg frame with
  | some (.obj m) =>
    match objLookup m "type" with
    | some (.str t) =>
      if t = "Welcome" then
        match objLookup m "fullState" with
        | some (.obj fs) => some (.obj fs)
        | _ => none
      else none
    | _ => none
  | _ => none

/-- The snapshot scan loop (app.py lines 582‑586): a single
left-to-right pass in which a later matching frame overwrites an
earlier one. -/
def extractWelcome (body : Value) : Option Value :=
  (scanFrames body).foldl
    (fun acc fr =>
      match snapshotOf fr with
      | some fs => some fs
      | none => acc)
    none

/-- Frame list used by `_collect_patches_from_body`
(app.py lines 217‑227). -/
def framesForPatches (body : Value) : List Value :=
  match body with
  | .obj kvs =>
    match objLookup kvs "frames" with
    | some (.arr fs) => fs
    | _ =>
      let patchesIsList := match objLookup kvs "patches" with
        | some (.arr _) => true
        | _ => false
      if (objLookup kvs "type").isSome && patchesIsList then [.obj kvs]
      else if (objLookup kvs "msg").isSome then [.obj kvs]
      else if patchesIsList then [.obj kvs]
      else []
  | .arr fs => fs
  | _ => []

/-- Patches contributed by one frame (app.py lines 229‑236): a
dict-typed `msg` with `type == 'PartialState'` and a list-typed
`patches`; otherwise the frame itself with the same shape. -/
def patchesOfFrame (frame : Value) : List Value :=
  match frame with
  | .obj kvs =>
    let direct : List Value :=
      match objLookup kvs "type" with
      | some (.str t) =>
        if t = "PartialState" then
          match objLookup kvs "patches" with
          | some (.arr ps) => ps
          | _ => []
        else []
      | _ => []
    match objLookup kvs "msg" with
    | some (.obj m) =>
      match objLookup m "type" with
      | some (.str t) =>
        if t = "PartialState" then
          match objLookup m "patches" with
          | some (.arr ps) => ps
          | _ => direct
        else direct
      | _ => direct
    | _ => direct
  | _ => []

/-- `_collect_patches_from_body` (app.py lines 209‑238). -/
def collectPatches (body : Value) : List Value :=
  (framesForPatches body).flatMap patchesOfFrame

/-! ### The store (`/api/wslog` request handling)

The store state is the process-wide `WELCOME_RECEIVED` gate flag plus
the persisted `full_game_state.json` document (`none` = file absent).
File I/O failures and corrupt file contents are outside the model:
every persisted write stores a well-formed `Value` (which is what the
atomic temp-file/rename write guarantees). -/

structure ServerState where
  welcomeReceived : Bool
  fullGameState : Option Value
deriving Repr

/-- Response fields of `api_wslog` that the engine's contract
mentions.  `Option`/`Bool` fields model JSON keys that are present
only on some paths. -/
structure WslogOut where
  ok : Option Bool
  logged : Nat
  applied : Nat
  skipped : Nat
  requiresWelcome : Bool
  welcomeSaved : Bool
  reasons : Option (List String)
  error : Option String
  status : Nat
deriving Repr

/-- `reasons[-5:]`. -/
def lastFive (l : List String) : List String :=
  l.drop (l.length - 5)

/-- The Welcome persist step (app.py lines 588‑598): when a snapshot
was extracted, write it as the whole document and set the gate flag. -/
def seedStep (st : ServerState) (body : Value) : ServerState :=
  match extractWelcome body with
  | some fs => { welcomeReceived := true, fullGameState := some fs }
  | none => st

/-- `api_wslog` (app.py lines 529‑679) as a state transformer.  The
frame logging writes to `ws_log.jsonl` only through a line that is
commented out in the source, so logging affects nothing but the
`logged` count. -/
def apiWslog (st : ServerState) (body : Value) : ServerState × WslogOut :=
  let logged := (framesToLog body).length
  let st₁ := seedStep st body
  let welcomeSaved := (extractWelcome body).isSome
  let patches := collectPatches body
  match patches with
  | [] =>
    (st₁, ⟨some true, logged, 0, 0, false, welcomeSaved, none, none, 200⟩)
  | _ =>
    if ¬ st₁.welcomeReceived then
      (st₁,
       ⟨some true, logged, 0, patches.length, true, welcomeSaved, none, none, 200⟩)
    else
      match st₁.fullGameState with
      | none =>
        (st₁,
         ⟨none, logged, 0, patches.length, true, welcomeSaved, none,
          some "state_missing", 503⟩)
      | some state₀ =>
        let r := applyBatchLoop state₀ patches
        ({ st₁ with fullGameState := some r.doc },
         ⟨some true, logged, r.applied, r.skipped, false, welcomeSaved,
          (match r.reasons with
           | [] => none
           | rs => some (lastFive rs)),
          none, 200⟩)

/-! ### Concurrency model for `ApplyBatch`

In `api_wslog` the load of `full_game_state.json` runs inside one
`with _state_lock():` block (app.py lines 629‑646) and the persist
inside a second, separate block (lines 661‑663); the patch loop in
between touches only the request's in-memory copy.  Each lock-guarded
region is therefore one atomic action on the shared file, and a whole
`ApplyBatch` is the two-action sequence *load; applyAndPersist*.  Two
concurrent seeded-store requests are modelled by interleaving those
actions under a schedule. -/

/-- One in-flight `ApplyBatch` request: not yet loaded, loaded with a
private in-memory copy, or finished. -/
inductive BatchPhase where
  | start
  | loaded (localDoc : Value)
  | done
deriving Repr

/-- One atomic step of one request against the shared persisted file:
`start → loaded` performs the lock-guarded load; `loaded → done`
applies the batch to the private copy and performs the lock-guarded
persist.  A finished request leaves the file unchanged. -/
def batchStep (patches : List Value) (file : Value) (ph : BatchPhase) :
    Value × BatchPhase :=
  match ph with
  | .start => (file, .loaded file)
  | .loaded doc => ((applyBatchLoop doc patches).doc, .done)
  | .done => (file, .done)

/-- Run a schedule (list of process ids, `false` = A, `true` = B) of
two concurrent `ApplyBatch` calls over the shared file. -/
def runSched (pa pb : List Value) :
    List Bool → Value × BatchPhase × BatchPhase → Value × BatchPhase × BatchPhase
  | [], s => s
  | pid :: sched, (file, a, b) =>
    if pid then
      let (file', b') := batchStep pb file b
      runSched pa pb sched (file', a, b')
    else
      let (file', a') := batchStep pa file a
      runSched pa pb sched (file', a', b)

/-! ### Concrete fixtures used to instantiate the theorems -/

/-- A patch object on the wire. -/
def pPatch (op path : String) (v : Value) : Value :=
  .obj [("op", .str op), ("path", .str path), ("value", v)]

/-- A bare `PartialState` message carrying a patch list. -/
def psBody (ps : List Value) : Value :=
  .obj [("type", .str "PartialState"), ("patches", .arr ps)]

/-- A logged frame wrapping a `Welcome` message whose `fullState`
is `\x7b"i": i\x7d`. -/
def welcomeFrame (i : Int) : Value :=
  .obj [("msg", .obj [("type", .str "Welcome"),
                      ("fullState", .obj [("i", .num i)])])]


/-! ### Helper lemmas for the pointer round trip -/

theorem tE_t0 (rest : List Char) :
    tildeEscaped ('~' :: '0' :: rest) = tildeEscaped rest := rfl

theorem tE_t1 (rest : List Char) :
    tildeEscaped ('~' :: '1' :: rest) = tildeEscaped rest := rfl

theorem tE_cons_ne (c : Char) (h : c ≠ '~') (cs : List Char) :
    tildeEscaped (c :: cs) = tildeEscaped cs := by
  rw [tildeEscaped]
  exact fun e => h e

theorem d1_t0 (x : List Char) :
    replace2 '~' '1' ['/'] ('~' :: '0' :: x) = '~' :: '0' :: replace2 '~' '1' ['/'] x := by
  cases x <;> rfl

theorem d1_t1 (x : List Char) :
    replace2 '~' '1' ['/'] ('~' :: '1' :: x) = '/' :: replace2 '~' '1' ['/'] x := rfl

theorem d1_ne (c : Char) (h : c ≠ '~') (x : List Char) :
    replace2 '~' '1' ['/'] (c :: x) = c :: replace2 '~' '1' ['/'] x := by
  cases x with
  | nil => rfl
  | cons d ds => simp [replace2, h]

theorem d2_t0 (x : List Char) :
    replace2 '~' '0' ['~'] ('~' :: '0' :: x) = '~' :: replace2 '~' '0' ['~'] x := rfl

theorem d2_ne (c : Char) (h : c ≠ '~') (x : List Char) :
    replace2 '~' '0' ['~'] (c :: x) = c :: replace2 '~' '0' ['~'] x := by
  cases x with
  | nil => rfl
  | cons d ds => simp [replace2, h]

theorem e1_t (x : List Char) :
    replace1 '~' ['~', '0'] ('~' :: x) = '~' :: '0' :: replace1 '~' ['~', '0'] x := rfl

theorem e1_ne (c : Char) (h : c ≠ '~') (x : List Char) :
    replace1 '~' ['~', '0'] (c :: x) = c :: replace1 '~' ['~', '0'] x := by
  simp [replace1, h]

theorem e2_s (x : List Char) :
    replace1 '/' ['~', '1'] ('/' :: x) = '~' :: '1' :: replace1 '/' ['~', '1'] x := rfl

theorem e2_ne (c : Char) (h : c ≠ '/') (x : List Char) :
    replace1 '/' ['~', '1'] (c :: x) = c :: replace1 '/' ['~', '1'] x := by
  simp [replace1, h]

theorem encodeTokenL_decodeTokenL (l : List Char) (hs : '/' ∉ l)
    (ht : tildeEscaped l = true) :
    encodeTokenL (decodeTokenL l) = l := by
  induction l using tildeEscaped.induct with
  | case1 => rfl
  | case2 rest ih =>
    have hs' : '/' ∉ rest := fun h => hs (by simp [h])
    have ht' : tildeEscaped rest = true := by rw [tE_t0] at ht; exact ht
    rw [decodeTokenL, d1_t0, d2_t0]
    rw [encodeTokenL, e1_t, e2_ne _ (by decide), e2_ne _ (by decide)]
    rw [show replace2 '~' '0' ['~'] (replace2 '~' '1' ['/'] rest) = decodeTokenL rest from rfl]
    rw [show ∀ y, replace1 '/' ['~', '1'] (replace1 '~' ['~', '0'] y) = encodeTokenL y from fun y => rfl]
    rw [ih hs' ht']
  | case3 rest ih =>
    have hs' : '/' ∉ rest := fun h => hs (by simp [h])
    have ht' : tildeEscaped rest = true := by rw [tE_t1] at ht; exact ht
    rw [decodeTokenL, d1_t1, d2_ne _ (by decide)]
    rw [encodeTokenL, e1_ne _ (by decide), e2_s]
    rw [show replace2 '~' '0' ['~'] (replace2 '~' '1' ['/'] rest) = decodeTokenL rest from rfl]
    rw [show ∀ y, replace1 '/' ['~', '1'] (replace1 '~' ['~', '0'] y) = encodeTokenL y from fun y => rfl]
    rw [ih hs' ht']
  | case4 cs h1 h2 =>
    exfalso
    rcases cs with _ | ⟨c, rest⟩
    · exact Bool.noConfusion ht
    · by_cases h0 : c = '0'
      · exact h1 rest (by rw [h0])
      · by_cases hone : c = '1'
        · exact h2 rest (by rw [hone])
        · rw [tildeEscaped] at ht
          · exact Bool.noConfusion ht
          · exact fun r e => by injection e with e1 _; exact h0 e1
          · exact fun r e => by injection e with e1 _; exact hone e1
  | case5 c cs h ih =>
    have hc : c ≠ '~' := fun e => h e
    have hcs : c ≠ '/' := fun e => hs (by simp [e])
    have hs' : '/' ∉ cs := fun hm => hs (by simp [hm])
    have ht' : tildeEscaped cs = true := by rw [tE_cons_ne c hc] at ht; exact ht
    rw [decodeTokenL, d1_ne _ hc, d2_ne _ hc]
    rw [encodeTokenL, e1_ne _ hc, e2_ne _ hcs]
    rw [show replace2 '~' '0' ['~'] (replace2 '~' '1' ['/'] cs) = decodeTokenL cs from rfl]
    rw [show ∀ y, replace1 '/' ['~', '1'] (replace1 '~' ['~', '0'] y) = encodeTokenL y from fun y => rfl]
    rw [ih hs' ht']

theorem splitSlash_ne_nil : ∀ l : List Char, splitSlash l ≠ []
  | [] => by simp [splitSlash]
  | c :: cs => by
    rw [splitSlash]
    split
    · simp
    · split
      · simp
      · simp

/-- Every part produced by splitting canonically escaped text is
slash-free and canonically escaped. -/
theorem splitSlash_parts (l : List Char) (ht : tildeEscaped l = true) :
    ∀ g ∈ splitSlash l, '/' ∉ g ∧ tildeEscaped g = true := by
  induction l using tildeEscaped.induct with
  | case1 =>
    intro g hg
    simp [splitSlash] at hg
    simp [hg, tildeEscaped]
  | case2 rest ih =>
    have ht' : tildeEscaped rest = true := by rw [tE_t0] at ht; exact ht
    rcases hg0 : splitSlash rest with _ | ⟨g0, gs0⟩
    · exact absurd hg0 (splitSlash_ne_nil rest)
    · have hss : splitSlash ('~' :: '0' :: rest) = ('~' :: '0' :: g0) :: gs0 := by
        rw [splitSlash]
        rw [if_neg (by decide)]
        rw [splitSlash]
        rw [if_neg (by decide)]
        rw [hg0]
      intro g hg
      rw [hss] at hg
      rcases List.mem_cons.mp hg with he | hmem
      · have hh := ih ht' g0 (by rw [hg0]; exact List.mem_cons_self g0 gs0)
        subst he
        refine ⟨?_, ?_⟩
        · intro hm
          rcases List.mem_cons.mp hm with h1 | hm1
          · exact absurd h1 (by decide)
          · rcases List.mem_cons.mp hm1 with h2 | hm2
            · exact absurd h2 (by decide)
            · exact hh.1 hm2
        · rw [tE_t0]; exact hh.2
      · exact ih ht' g (by rw [hg0]; exact List.mem_cons_of_mem g0 hmem)
  | case3 rest ih =>
    have ht' : tildeEscaped rest = true := by rw [tE_t1] at ht; exact ht
    rcases hg0 : splitSlash rest with _ | ⟨g0, gs0⟩
    · exact absurd hg0 (splitSlash_ne_nil rest)
    · have hss : splitSlash ('~' :: '1' :: rest) = ('~' :: '1' :: g0) :: gs0 := by
        rw [splitSlash]
        rw [if_neg (by decide)]
        rw [splitSlash]
        rw [if_neg (by decide)]
        rw [hg0]
      intro g hg
      rw [hss] at hg
      rcases List.mem_cons.mp hg with he | hmem
      · have hh := ih ht' g0 (by rw [hg0]; exact List.mem_cons_self g0 gs0)
        subst he
        refine ⟨?_, ?_⟩
        · intro hm
          rcases List.mem_cons.mp hm with h1 | hm1
          · exact absurd h1 (by decide)
          · rcases List.mem_cons.mp hm1 with h2 | hm2
            · exact absurd h2 (by decide)
            · exact hh.1 hm2
        · rw [tE_t1]; exact hh.2
      · exact ih ht' g (by rw [hg0]; exact List.mem_cons_of_mem g0 hmem)
  | case4 cs h1 h2 =>
    exfalso
    rcases cs with _ | ⟨c, rest⟩
    · exact Bool.noConfusion ht
    · by_cases h0 : c = '0'
      · exact h1 rest (by rw [h0])
      · by_cases hone : c = '1'
        · exact h2 rest (by rw [hone])
        · rw [tildeEscaped] at ht
          · exact Bool.noConfusion ht
          · exact fun r e => by injection e with e1 _; exact h0 e1
          · exact fun r e => by injection e with e1 _; exact hone e1
  | case5 c cs hcn ih =>
    have hc : c ≠ '~' := fun e => hcn e
    have ht' : tildeEscaped cs = true := by rw [tE_cons_ne c hc] at ht; exact ht
    by_cases hcs : c = '/'
    · subst hcs
      have hss : splitSlash ('/' :: cs) = [] :: splitSlash cs := by
        rw [splitSlash, if_pos rfl]
      intro g hg
      rw [hss] at hg
      rcases List.mem_cons.mp hg with he | hmem
      · subst he; exact ⟨by simp, rfl⟩
      · exact ih ht' g hmem
    · rcases hg0 : splitSlash cs with _ | ⟨g0, gs0⟩
      · exact absurd hg0 (splitSlash_ne_nil cs)
      · have hss : splitSlash (c :: cs) = (c :: g0) :: gs0 := by
          rw [splitSlash, if_neg hcs, hg0]
        intro g hg
        rw [hss] at hg
        rcases List.mem_cons.mp hg with he | hmem
        · have hh := ih ht' g0 (by rw [hg0]; exact List.mem_cons_self g0 gs0)
          subst he
          refine ⟨?_, ?_⟩
          · intro hm
            rcases List.mem_cons.mp hm with h1 | hm1
            · exact hcs h1.symm
            · exact hh.1 hm1
          · rw [tE_cons_ne c hc]; exact hh.2
        · exact ih ht' g (by rw [hg0]; exact List.mem_cons_of_mem g0 hmem)


theorem joinSlash_splitSlash (l : List Char) : joinSlash (splitSlash l) = '/' :: l := by
  induction l with
  | nil => rfl
  | cons c cs ih =>
    rw [splitSlash]
    by_cases hc : c = '/'
    · rw [if_pos hc, hc]
      show '/' :: joinSlash (splitSlash cs) = _
      rw [ih]
    · rw [if_neg hc]
      rcases hg0 : splitSlash cs with _ | ⟨g0, gs0⟩
      · exact absurd hg0 (splitSlash_ne_nil cs)
      · rw [hg0] at ih
        have : g0 ++ joinSlash gs0 = cs := by
          have h2 : '/' :: (g0 ++ joinSlash gs0) = '/' :: cs := ih
          injection h2
        show '/' :: c :: (g0 ++ joinSlash gs0) = '/' :: c :: cs
        rw [this]

theorem mk_append (a b : List Char) :
    String.mk a ++ String.mk b = String.mk (a ++ b) := rfl

theorem encodePointer_parts (gs : List (List Char))
    (h : ∀ g ∈ gs, '/' ∉ g ∧ tildeEscaped g = true) :
    encodePointer (gs.map (fun g => String.mk (decodeTokenL g))) =
      String.mk (joinSlash gs) := by
  induction gs with
  | nil => rfl
  | cons g gs ih =>
    have hg := h g (List.mem_cons_self g gs)
    have ih' := ih (fun g' hg' => h g' (List.mem_cons_of_mem g hg'))
    show "/" ++ encodeToken (String.mk (decodeTokenL g)) ++ _ = _
    rw [ih']
    rw [show encodeToken (String.mk (decodeTokenL g)) =
        String.mk (encodeTokenL (decodeTokenL g)) from rfl]
    rw [encodeTokenL_decodeTokenL g hg.1 hg.2]
    rw [show ("/" : String) = String.mk ['/'] from rfl, mk_append, mk_append]
    show String.mk (('/' :: g) ++ joinSlash gs) = String.mk (joinSlash (g :: gs))
    rfl

theorem pointer_roundtrip_main (p : String) (rest : List Char)
    (hd : p.data = '/' :: rest) (ht : tildeEscaped p.data = true) :
    encodePointer (jsonPointerTokens p) = p := by
  have hne : p ≠ "" := by
    intro e
    rw [e] at hd
    exact List.noConfusion hd
  have ht' : tildeEscaped rest = true := by
    rw [hd, tE_cons_ne '/' (by decide)] at ht
    exact ht
  have htk : jsonPointerTokens p =
      (splitSlash rest).map (fun l => String.mk (decodeTokenL l)) := by
    rw [jsonPointerTokens, if_neg hne, hd]
    rfl
  rw [htk, encodePointer_parts _ (splitSlash_parts rest ht'), joinSlash_splitSlash,
    ← hd]

/-! ### Claim theorems -/

/-- C5: applying the single patch with op `add`, path `/a/b/0/c`,
value `5` and creation enabled (op is `add`) to the empty document
produces exactly the document with an object at `a`, an array at `b`,
and an object with `c = 5` at index 0. -/
theorem addCreate_literal_example_nested :
    applySinglePatch (.obj [])
        (.obj [("op", .str "add"), ("path", .str "/a/b/0/c"), ("value", .num 5)]) =
      (.obj [("a", .obj [("b", .arr [.obj [("c", .num 5)]])])], true, none) := rfl

/-- C3: for an `add` whose resolved parent is an array, key `-`
appends; an integer key in `[0, len]` inserts at that index; an
integer key above `len` pads with nulls then appends (so the literal
example `/arr/5` on `[1,2]` yields `[1,2,null,null,null,"z"]`); a
negative or non-integer key fails and leaves the array unchanged. -/
theorem addFinal_array_semantics (xs : List Value) (v : Value) :
    (addFinal v (.arr xs) "-" = (.arr (xs ++ [v]), true, none)) ∧
    (∀ k i, pyParseInt? k = some i → 0 ≤ i → i ≤ (xs.length : Int) →
      addFinal v (.arr xs) k = (.arr (pyInsert i.toNat v xs), true, none)) ∧
    (∀ k i, pyParseInt? k = some i → (xs.length : Int) < i →
      addFinal v (.arr xs) k =
        (.arr (xs ++ List.replicate (i.toNat - xs.length) .null ++ [v]), true, none)) ∧
    (∀ k i, pyParseInt? k = some i → i < 0 →
      addFinal v (.arr xs) k = (.arr xs, false, some "index out of range")) ∧
    (∀ k, k ≠ "-" → pyParseInt? k = none →
      addFinal v (.arr xs) k = (.arr xs, false, some "invalid index token")) ∧
    applySinglePatch (.obj [("arr", .arr [.num 1, .num 2])])
        (.obj [("op", .str "add"), ("path", .str "/arr/5"), ("value", .str "z")]) =
      (.obj [("arr", .arr [.num 1, .num 2, .null, .null, .null, .str "z"])],
       true, none) := by
  have hdash : ∀ (k : String) (i : Int), pyParseInt? k = some i → k ≠ "-" := by
    intro k i hk e
    rw [e] at hk
    exact Option.noConfusion hk
  refine ⟨rfl, ?_, ?_, ?_, ?_, rfl⟩
  · intro k i hk h0 hlen
    rw [addFinal, if_neg (by simpa using hdash k i hk), hk]
    dsimp only
    rw [if_neg (by omega), if_pos hlen]
  · intro k i hk hlen
    rw [addFinal, if_neg (by simpa using hdash k i hk), hk]
    dsimp only
    rw [if_neg (by omega), if_neg (by omega)]
  · intro k i hk hneg
    rw [addFinal, if_neg (by simpa using hdash k i hk), hk]
    dsimp only
    rw [if_pos hneg]
  · intro k hkd hk
    rw [addFinal, if_neg (by simpa using hkd), hk]

/-- C3 witness: the cases of `addFinal_array_semantics` instantiated
at the array `[1, 2]` with value `"z"` and keys `"1"`, `"-3"`, `"x"`. -/
theorem addFinal_array_semantics_witness :
    (pyParseInt? "1" = some 1 ∧
      addFinal (.str "z") (.arr [.num 1, .num 2]) "1" =
        (.arr (pyInsert (1 : Int).toNat (.str "z") [.num 1, .num 2]), true, none)) ∧
    addFinal (.str "z") (.arr [.num 1, .num 2]) "-3" =
      (.arr [.num 1, .num 2], false, some "index out of range") ∧
    addFinal (.str "z") (.arr [.num 1, .num 2]) "x" =
      (.arr [.num 1, .num 2], false, some "invalid index token") :=
  ⟨⟨rfl, (addFinal_array_semantics [.num 1, .num 2] (.str "z")).2.1 "1" 1 rfl
      (by decide) (by decide)⟩,
   (addFinal_array_semantics [.num 1, .num 2] (.str "z")).2.2.2.1 "-3" (-3) rfl
      (by decide),
   (addFinal_array_semantics [.num 1, .num 2] (.str "z")).2.2.2.2.1 "x"
      (by decide) rfl⟩

/-- C4 counterexample: the claim says a next token parsing as a
negative integer yields an Object, but `_is_int_token` accepts `-1`,
so the resolver creates an Array there: adding at path a, -1, b to
the empty document creates `{"a": []}` (and then fails on the
negative index), and an Array is not an Object. -/
theorem newContainer_negative_int_counterexample :
    newContainer "-1" = Value.arr [] ∧
    applySinglePatch (.obj [])
        (.obj [("op", .str "add"), ("path", .str "/a/-1/b"), ("value", .num 7)]) =
      (.obj [("a", .arr [])], false,
       some "\x27Negative index not allowed: -1\x27") ∧
    Value.arr [] ≠ Value.obj [] :=
  ⟨rfl, rfl, fun h => Value.noConfusion h⟩

/-- C4 amended: when creation is enabled the resolver creates an
`Array` exactly when the next token is `"-"` or parses as an integer
literal — negative integers included (`-1` is accepted by
`_is_int_token`) — and an `Object` in every other case. -/
theorem newContainer_array_iff (t : String) :
    (newContainer t = .arr [] ↔ (t = "-" ∨ isIntToken t = true)) ∧
    (newContainer t = .obj [] ↔ ¬ (t = "-" ∨ isIntToken t = true)) ∧
    isIntToken "-1" = true := by
  by_cases h : t = "-" ∨ isIntToken t = true
  · rw [newContainer, if_pos h]
    exact ⟨⟨fun _ => h, fun _ => rfl⟩,
      ⟨fun he => absurd he (fun hx => Value.noConfusion hx), fun hn => absurd h hn⟩, rfl⟩
  · rw [newContainer, if_neg h]
    exact ⟨⟨fun he => absurd he (fun hx => Value.noConfusion hx), fun ho => absurd ho h⟩,
      ⟨fun _ => h, fun _ => rfl⟩, rfl⟩

/-- C4 amended, witnessed at the negative-integer token `"-1"`: an
Array is created. -/
theorem newContainer_array_iff_witness :
    newContainer "-1" = Value.arr [] :=
  (newContainer_array_iff "-1").1.mpr (Or.inr rfl)

/-- C6 counterexample: decoding `"/~~1"` and re-encoding with
`~0`/`~1` escaping yields `"/~0~1"`, not the original string, although
the string contains both `/` and `~`. -/
theorem pointer_roundtrip_counterexample :
    encodePointer (jsonPointerTokens "/~~1") ≠ "/~~1" ∧
    encodePointer (jsonPointerTokens "/~~1") = "/~0~1" ∧
    "/~~1".data.contains '/' = true ∧ "/~~1".data.contains '~' = true := by
  refine ⟨?_, rfl, rfl, rfl⟩
  intro h
  rw [show encodePointer (jsonPointerTokens "/~~1") = "/~0~1" from rfl] at h
  exact absurd h (by decide)

/-- C6 amended: for every path string that starts with `/` and is
canonically escaped (every `~` immediately followed by `0` or `1`),
decoding into tokens and re-encoding with `~0`/`~1` escaping joined by
`/` reproduces the original string exactly. -/
theorem pointer_roundtrip_canonical (p : String) (rest : List Char)
    (hd : p.data = '/' :: rest) (ht : tildeEscaped p.data = true) :
    encodePointer (jsonPointerTokens p) = p :=
  pointer_roundtrip_main p rest hd ht

/-- C6 witness: the round trip evaluated on `"/a~0b/c~1d"`. -/
theorem pointer_roundtrip_canonical_witness :
    encodePointer (jsonPointerTokens "/a~0b/c~1d") = "/a~0b/c~1d" :=
  pointer_roundtrip_canonical "/a~0b/c~1d" "a~0b/c~1d".data rfl (by decide)

/-- C9: a non-empty path that does not start with `/` decodes to a
single token equal to the whole string with no unescaping, so an `add`
patch with such a path writes the top-level key literally equal to the
path string instead of being rejected. -/
theorem nonSlash_path_single_literal_token (p : String) (hne : p ≠ "")
    (hns : p.data.head? ≠ some '/') :
    jsonPointerTokens p = [p] ∧
    ∀ kvs v,
      applySinglePatch (.obj kvs)
          (.obj [("op", .str "add"), ("path", .str p), ("value", v)]) =
        (.obj (objSet kvs p v), true, none) := by
  have htk : jsonPointerTokens p = [p] := by
    rw [jsonPointerTokens, if_neg hne]
    split
    · rename_i rest heq
      rw [heq] at hns
      exact absurd rfl hns
    · rfl
  refine ⟨htk, ?_⟩
  intro kvs v
  calc applySinglePatch (.obj kvs)
          (.obj [("op", .str "add"), ("path", .str p), ("value", v)])
      = (match jsonPointerTokens p with
         | [] => (Value.obj kvs, false, some "root path not supported")
         | tokens => navApply true (addFinal v) (.obj kvs) tokens) := rfl
    _ = navApply true (addFinal v) (.obj kvs) [p] := by rw [htk]
    _ = (.obj (objSet kvs p v), true, none) := rfl

/-- C9 witness: the path `"a~1b"` (no leading slash, containing an
escape sequence) is kept whole and written literally. -/
theorem nonSlash_path_single_literal_token_witness :
    jsonPointerTokens "a~1b" = ["a~1b"] ∧
    applySinglePatch (.obj [])
        (.obj [("op", .str "add"), ("path", .str "a~1b"), ("value", .num 3)]) =
      (.obj (objSet [] "a~1b" (.num 3)), true, none) :=
  ⟨(nonSlash_path_single_literal_token "a~1b" (by decide) (by decide)).1,
   (nonSlash_path_single_literal_token "a~1b" (by decide) (by decide)).2 [] (.num 3)⟩
/-- C10: applying one patch is total and never aborts the batch: a
patch with a missing or empty op, or with a non-string path, is
skipped with reason "missing op/path" and leaves the document
untouched; a non-dict entry in the patch list is handled as the empty
patch and likewise skipped, with the loop continuing; every patch in a
batch is counted exactly once as applied or skipped. -/
theorem applySinglePatch_total_and_skip_defaults :
    (∀ (doc : Value) (kvs : List (String × Value)),
      (objLookup kvs "op" = none ∨ objLookup kvs "op" = some (.str "")) →
      applySinglePatch doc (.obj kvs) = (doc, false, some "missing op/path")) ∧
    (∀ (doc : Value) (kvs : List (String × Value)),
      (∀ s, objLookup kvs "path" ≠ some (.str s)) →
      applySinglePatch doc (.obj kvs) = (doc, false, some "missing op/path")) ∧
    (∀ (doc p : Value) (ps : List Value), p.isObj = false →
      applyBatchLoop doc (p :: ps) =
        ⟨(applyBatchLoop doc ps).doc, (applyBatchLoop doc ps).applied,
         (applyBatchLoop doc ps).skipped + 1,
         "missing op/path" :: (applyBatchLoop doc ps).reasons⟩) ∧
    (∀ (doc : Value) (patches : List Value),
      (applyBatchLoop doc patches).applied + (applyBatchLoop doc patches).skipped =
        patches.length) := by
  have hop : ∀ kvs : List (String × Value),
      (objLookup kvs "op" = none ∨ objLookup kvs "op" = some (.str "")) →
      pyLower (pyStr ((objLookup kvs "op").getD (.str ""))) = "" := by
    intro kvs h
    rcases h with h | h <;> rw [h] <;> rfl
  have h1 : ∀ (doc : Value) (kvs : List (String × Value)),
      (objLookup kvs "op" = none ∨ objLookup kvs "op" = some (.str "")) →
      applySinglePatch doc (.obj kvs) = (doc, false, some "missing op/path") := by
    intro doc kvs h
    rw [applySinglePatch]
    split
    · rw [if_pos (hop kvs h)]
    · rfl
  have h2 : ∀ (doc : Value) (kvs : List (String × Value)),
      (∀ s, objLookup kvs "path" ≠ some (.str s)) →
      applySinglePatch doc (.obj kvs) = (doc, false, some "missing op/path") := by
    intro doc kvs h
    rw [applySinglePatch]
    split
    · rename_i path heq
      exact absurd heq (h path)
    · rfl
  have h3 : ∀ (doc p : Value) (ps : List Value), p.isObj = false →
      applyBatchLoop doc (p :: ps) =
        ⟨(applyBatchLoop doc ps).doc, (applyBatchLoop doc ps).applied,
         (applyBatchLoop doc ps).skipped + 1,
         "missing op/path" :: (applyBatchLoop doc ps).reasons⟩ := by
    intro doc p ps h
    rw [applyBatchLoop, h]
    rfl
  refine ⟨h1, h2, h3, ?_⟩
  intro doc patches
  induction patches generalizing doc with
  | nil => rfl
  | cons p ps ih =>
    rw [applyBatchLoop]
    rcases happ : applySinglePatch doc (if p.isObj then p else .obj []) with
      ⟨doc1, ok, reason⟩
    dsimp only
    have hI := ih doc1
    cases ok <;> simp only [Bool.false_eq_true, if_false, if_true, List.length_cons] <;>
      omega

/-- C10 witness: the skip defaults evaluated on concrete degenerate
patches — a dict with no op, a dict with no path, and a raw number in
the patch list. -/
theorem applySinglePatch_total_and_skip_defaults_witness :
    applySinglePatch (.obj []) (.obj [("path", .str "/x")]) =
      (.obj [], false, some "missing op/path") ∧
    applySinglePatch (.obj []) (.obj [("op", .str "add")]) =
      (.obj [], false, some "missing op/path") ∧
    applyBatchLoop (.obj []) [.num 7] = ⟨.obj [], 0, 1, ["missing op/path"]⟩ ∧
    (applyBatchLoop (.obj []) [.num 7]).applied +
        (applyBatchLoop (.obj []) [.num 7]).skipped = 1 :=
  ⟨applySinglePatch_total_and_skip_defaults.1 (.obj []) [("path", .str "/x")]
      (Or.inl rfl),
   applySinglePatch_total_and_skip_defaults.2.1 (.obj []) [("op", .str "add")]
      (fun _ h => nomatch h),
   ((applySinglePatch_total_and_skip_defaults.2.2.1 (.obj []) (.num 7) [] rfl).trans
      rfl),
   applySinglePatch_total_and_skip_defaults.2.2.2 (.obj []) [.num 7]⟩

/-- C2: a non-empty patch batch posted to a store whose gate flag is
false (and whose envelope carries no Welcome snapshot) is rejected
whole: `applied = 0`, `skipped = len(P)`, the distinct
`requiresWelcome` signal is set, and the store — gate flag and
persisted document — is left unchanged. -/
theorem applyBatch_unseeded_gate_rejects (st : ServerState) (body : Value)
    (hgate : st.welcomeReceived = false)
    (hwel : extractWelcome body = none)
    (hp : collectPatches body ≠ []) :
    (apiWslog st body).2.applied = 0 ∧
    (apiWslog st body).2.skipped = (collectPatches body).length ∧
    (apiWslog st body).2.requiresWelcome = true ∧
    (apiWslog st body).1 = st := by
  have hseed : seedStep st body = st := by rw [seedStep, hwel]
  rw [apiWslog, hseed]
  rcases hps : collectPatches body with _ | ⟨p, ps⟩
  · exact absurd hps hp
  · dsimp only
    rw [if_pos (by rw [hgate]; exact Bool.false_ne_true)]
    exact ⟨rfl, rfl, rfl, rfl⟩

/-- C2 witness: the gate rejection evaluated on a fresh store and a
one-patch `PartialState` body. -/
theorem applyBatch_unseeded_gate_rejects_witness :
    (apiWslog ⟨false, none⟩ (psBody [pPatch "add" "/x" (.num 1)])).2.applied = 0 ∧
    (apiWslog ⟨false, none⟩ (psBody [pPatch "add" "/x" (.num 1)])).2.skipped =
      (collectPatches (psBody [pPatch "add" "/x" (.num 1)])).length ∧
    (apiWslog ⟨false, none⟩ (psBody [pPatch "add" "/x" (.num 1)])).2.requiresWelcome =
      true ∧
    (apiWslog ⟨false, none⟩ (psBody [pPatch "add" "/x" (.num 1)])).1 =
      ⟨false, none⟩ :=
  applyBatch_unseeded_gate_rejects ⟨false, none⟩ (psBody [pPatch "add" "/x" (.num 1)])
    rfl rfl (fun h => nomatch h)


/-- C7 counterexample: two identical failing patches in one batch
produce a `reasons` list with two equal entries — the retained reasons
are not distinct, contrary to the claim. -/
theorem reasons_not_distinct_counterexample :
    (apiWslog ⟨true, some (.obj [])⟩
        (psBody [pPatch "replace" "/nope" (.num 1),
                 pPatch "replace" "/nope" (.num 1)])).2.reasons =
      some ["key not found for replace", "key not found for replace"] ∧
    ¬ (["key not found for replace",
        "key not found for replace"] : List String).Nodup :=
  ⟨rfl, by decide⟩

/-- C7 amended: when a batch against a seeded store contains skipped
patches, the `reasons` field holds the most recent at most 5 skip
reasons in order of occurrence, duplicates preserved (no
deduplication); earlier reasons are dropped. -/
theorem reasons_last_five_with_duplicates (st : ServerState) (body doc : Value)
    (hgate : st.welcomeReceived = true)
    (hdoc : st.fullGameState = some doc)
    (hwel : extractWelcome body = none)
    (hp : collectPatches body ≠ []) :
    ((apiWslog st body).2.reasons =
      match (applyBatchLoop doc (collectPatches body)).reasons with
      | [] => none
      | rs => some (lastFive rs)) ∧
    (∀ l, (apiWslog st body).2.reasons = some l →
      l.length ≤ 5 ∧
      l <:+ (applyBatchLoop doc (collectPatches body)).reasons) := by
  have hseed : seedStep st body = st := by rw [seedStep, hwel]
  have h1 : (apiWslog st body).2.reasons =
      match (applyBatchLoop doc (collectPatches body)).reasons with
      | [] => none
      | rs => some (lastFive rs) := by
    rw [apiWslog, hseed]
    rcases hps : collectPatches body with _ | ⟨p, ps⟩
    · exact absurd hps hp
    · dsimp only
      rw [if_neg (by rw [hgate]; exact not_not_intro rfl), hdoc]
  refine ⟨h1, ?_⟩
  intro l hl
  rw [h1] at hl
  rcases hr : (applyBatchLoop doc (collectPatches body)).reasons with _ | ⟨z, zs⟩
  · rw [hr] at hl
    exact absurd hl (fun h => nomatch h)
  · rw [hr] at hl
    have hlz : l = lastFive (z :: zs) := by
      injection hl with h
      exact h.symm
    subst hlz
    constructor
    · rw [lastFive, List.length_drop]
      omega
    · rw [lastFive]
      exact List.drop_suffix _ _

/-- C7 amended, witnessed on a seeded store and a two-patch batch
with identical failure reasons. -/
theorem reasons_last_five_with_duplicates_witness :
    (apiWslog ⟨true, some (.obj [])⟩
        (psBody [pPatch "replace" "/a" (.num 1),
                 pPatch "replace" "/a" (.num 2)])).2.reasons =
      some ["key not found for replace", "key not found for replace"] := by
  have h := reasons_last_five_with_duplicates ⟨true, some (.obj [])⟩
    (psBody [pPatch "replace" "/a" (.num 1), pPatch "replace" "/a" (.num 2)])
    (.obj []) rfl rfl rfl (fun h => nomatch h)
  rw [h.1]
  rfl

/-- The snapshot scan loop is a left fold in which a later match
overwrites an earlier one; it therefore returns the last match. -/
theorem foldl_snapshot_last (l : List Value) (acc : Option Value) :
    l.foldl (fun a fr =>
      match snapshotOf fr with
      | some fs => some fs
      | none => a) acc =
      match (l.filterMap snapshotOf).getLast? with
      | some v => some v
      | none => acc := by
  induction l generalizing acc with
  | nil => rfl
  | cons x xs ih =>
    rw [List.foldl_cons, ih, List.filterMap_cons]
    rcases hx : snapshotOf x with _ | fs
    · rfl
    · rcases hrest : xs.filterMap snapshotOf with _ | ⟨z, zs⟩
      · rfl
      · rw [List.getLast?_cons_cons]
        rcases hw : (z :: zs).getLast? with _ | w
        · simp at hw
        · rfl

/-- C8: a frame yields a snapshot exactly when its inner message has
type `Welcome` with an object-typed `fullState`; across one envelope
the extraction returns the last matching frame of the left-to-right
scan, and that value is the one the seed step persists with the gate
flag set. -/
theorem welcome_snapshot_last_wins (body : Value) (st : ServerState) :
    extractWelcome body = ((scanFrames body).filterMap snapshotOf).getLast? ∧
    ((extractWelcome body).isSome = true ↔
      ∃ fr ∈ scanFrames body, (snapshotOf fr).isSome = true) ∧
    (∀ fs, extractWelcome body = some fs →
      (seedStep st body).welcomeReceived = true ∧
      (seedStep st body).fullGameState = some fs) := by
  have h1 : extractWelcome body =
      ((scanFrames body).filterMap snapshotOf).getLast? := by
    rw [extractWelcome, foldl_snapshot_last]
    rcases ((scanFrames body).filterMap snapshotOf).getLast? with _ | v <;> rfl
  refine ⟨h1, ?_, ?_⟩
  · rw [h1]
    rw [List.getLast?_isSome]
    rw [ne_eq, List.filterMap_eq_nil_iff]
    push_neg
    constructor
    · rintro ⟨a, ha, hne⟩
      exact ⟨a, ha, Option.isSome_iff_ne_none.mpr hne⟩
    · rintro ⟨a, ha, hsome⟩
      exact ⟨a, ha, Option.isSome_iff_ne_none.mp hsome⟩
  · intro fs hfs
    rw [seedStep, hfs]
    exact ⟨rfl, rfl⟩

/-- C8 witness: an envelope with two Welcome frames; the second
frame's `fullState` is extracted and persisted by the seed step. -/
theorem welcome_snapshot_last_wins_witness :
    extractWelcome (.obj [("frames", .arr [welcomeFrame 1, welcomeFrame 2])]) =
      some (.obj [("i", .num 2)]) ∧
    (seedStep ⟨false, none⟩
        (.obj [("frames", .arr [welcomeFrame 1, welcomeFrame 2])])).welcomeReceived =
      true ∧
    (seedStep ⟨false, none⟩
        (.obj [("frames", .arr [welcomeFrame 1, welcomeFrame 2])])).fullGameState =
      some (.obj [("i", .num 2)]) :=
  ⟨rfl,
   ((welcome_snapshot_last_wins
       (.obj [("frames", .arr [welcomeFrame 1, welcomeFrame 2])])
       ⟨false, none⟩).2.2 _ rfl).1,
   ((welcome_snapshot_last_wins
       (.obj [("frames", .arr [welcomeFrame 1, welcomeFrame 2])])
       ⟨false, none⟩).2.2 _ rfl).2⟩

/-- C1 (violated by the code): in `api_wslog` the state load runs
under one lock acquisition and the persist under a second, separate
one, with patch application unlocked in between.  Interleaving two
one-append batches (load A, load B, persist A, persist B) against the
seeded document `{"arr": []}` leaves an array of length 1 — B
overwrites A's append — where the claim requires length 2N = 2; the
fully serialized schedule does yield both elements. -/
theorem applyBatch_interleaving_loses_update :
    runSched [pPatch "add" "/arr/-" (.str "a")] [pPatch "add" "/arr/-" (.str "b")]
        [false, true, false, true] (.obj [("arr", .arr [])], .start, .start) =
      (.obj [("arr", .arr [.str "b"])], .done, .done) ∧
    runSched [pPatch "add" "/arr/-" (.str "a")] [pPatch "add" "/arr/-" (.str "b")]
        [false, false, true, true] (.obj [("arr", .arr [])], .start, .start) =
      (.obj [("arr", .arr [.str "a", .str "b"])], .done, .done) ∧
    Value.obj [("arr", .arr [.str "b"])] ≠
      Value.obj [("arr", .arr [.str "a", .str "b"])] := by
  refine ⟨rfl, rfl, ?_⟩
  intro h
  injection h with h1
  injection h1 with h2
  injection h2 with h3 h4
  injection h4 with h5
  injection h5 with h6
  injection h6 with h7
  exact absurd h7 (by decide)

end MagicGarden
